import Mathlib

/-!
Shallow embedding of `tournament.py`, a Swiss-system tournament scheduler
backed by a players table and a matches table.

The database state is a pair of lists mirroring the two tables.  The SQL
views referenced by `player_standings` (`games_won`, `num_matches`, `omw`)
are defined in a schema file that is not part of the Python source; those
aggregates are modelled from the specification, as noted on each definition.
Everything else (the bootstrap branch, the tournament restriction, the sort
order, match recording and the pairing walk) is translated directly from
`tournament.py`.
-/

/-- A row of the players table: serial id and registered name. -/
structure Player where
  id : Nat
  name : String
deriving DecidableEq

/-- A row of the matches table: winner id, loser id and the tournament
scope under which the match was recorded. -/
structure MatchRec where
  winner_id : Nat
  loser_id : Nat
  tournament_id : Nat
deriving DecidableEq

/-- The database state: the players table and the matches table, each in
store-native (insertion) order. -/
structure DB where
  players : List Player
  «matches» : List MatchRec
deriving DecidableEq

/-- `report_match(winner, loser, tournament_id)`: appends one immutable
match record (lines 194-212 of `tournament.py`); no validation of the ids. -/
def report_match (db : DB) (winner loser tournament_id : Nat) : DB :=
  { db with «matches» := db.«matches» ++ [⟨winner, loser, tournament_id⟩] }

/-- `delete_matches()`: truncates the matches table (lines 54-60). -/
def delete_matches (db : DB) : DB :=
  { db with «matches» := [] }

/-- Modelled from the spec: `delete_players()` runs `TRUNCATE players
CASCADE` (lines 63-69); the schema with the foreign key from matches to
players is not in the source tree, and per the docstring ("Removes all the
player as well as match records") the truncation cascades to the matches
table, emptying both stores. -/
def delete_players (_db : DB) : DB :=
  ⟨[], []⟩

/-- The matches recorded under scope `t` (the `WHERE matches.tournament_id
= %s` filter used throughout). -/
def scopeMatches (db : DB) (t : Nat) : List MatchRec :=
  db.«matches».filter (fun m => m.tournament_id == t)

/-- `SELECT COUNT(match_id) FROM matches WHERE tournament_id = %s`
(lines 152-156): the number of matches recorded under scope `t`. -/
def countMatches (db : DB) (t : Nat) : Nat :=
  (scopeMatches db t).length

/-- Modelled from the spec: the `games_won` view is not in the source
tree; per the spec, `wins` is the count of matches where the player is the
winner, within scope. -/
def winCount (db : DB) (t p : Nat) : Nat :=
  (scopeMatches db t).countP (fun m => m.winner_id == p)

/-- Modelled from the spec: the `num_matches` view is not in the source
tree; per the spec, `games_played` is the count of matches where the
player is winner or loser, within scope. -/
def gameCount (db : DB) (t p : Nat) : Nat :=
  (scopeMatches db t).countP (fun m => m.winner_id == p || m.loser_id == p)

/-- The distinct opponents player `p` has faced within scope `t`: the
other participant of each scoped match involving `p`, deduplicated. -/
def opponentIds (db : DB) (t p : Nat) : List Nat :=
  ((scopeMatches db t).filterMap (fun m =>
    if m.winner_id == p then some m.loser_id
    else if m.loser_id == p then some m.winner_id
    else none)).dedup

/-- Modelled from the spec: the `omw` view is not in the source tree; per
the spec, Opponent Match Wins is the sum, over each distinct opponent the
player has faced at least once within scope, of that opponent's own win
count, each distinct opponent counted once. -/
def omw (db : DB) (t p : Nat) : Nat :=
  ((opponentIds db t p).map (fun q => winCount db t q)).sum

/-- The columns of the standings subquery joined with `num_matches`
(lines 176-185): id, name, wins, opponent wins, games played. -/
structure SRow where
  id : Nat
  name : String
  wins : Nat
  opponent_wins : Nat
  games_played : Nat
deriving DecidableEq

/-- A returned standings row (line 176): `(id, name, wins, games_played)`. -/
structure Row where
  id : Nat
  name : String
  wins : Nat
  games_played : Nat
deriving DecidableEq

/-- The joined record the standings query builds for one player. -/
def mkSRow (db : DB) (t : Nat) (p : Player) : SRow :=
  ⟨p.id, p.name, winCount db t p.id, omw db t p.id, gameCount db t p.id⟩

/-- The comparison of `ORDER BY wins DESC, opponent_wins DESC,
games_played ASC` (lines 186-187): `a` may precede `b`. -/
def srowR (a b : SRow) : Prop :=
  b.wins < a.wins ∨ (a.wins = b.wins ∧
    (b.opponent_wins < a.opponent_wins ∨ (a.opponent_wins = b.opponent_wins ∧
      a.games_played ≤ b.games_played)))

instance : DecidableRel srowR :=
  fun a b => by unfold srowR; exact inferInstance

instance : IsTotal SRow srowR :=
  ⟨fun a b => by unfold srowR; omega⟩

instance : IsTrans SRow srowR :=
  ⟨fun a b c => by unfold srowR; omega⟩

/-- `player_standings(tournament_id)` (lines 125-191).  If no match is
recorded under the scope, every registered player is returned with zero
wins and zero games, in store-native order (lines 159-163).  Otherwise the
per-player aggregates are joined, restricted to players with at least one
scoped game when a tournament is specified (lines 170-173), ordered by
wins descending, opponent wins descending, games played ascending, and
projected to `(id, name, wins, games_played)`. -/
def player_standings (db : DB) (t : Nat) : List Row :=
  if countMatches db t = 0 then
    db.players.map (fun p => ⟨p.id, p.name, 0, 0⟩)
  else
    let base := db.players.map (mkSRow db t)
    let restricted := if t ≠ 0 then base.filter (fun r => 0 < r.games_played) else base
    (List.insertionSort srowR restricted).map (fun r => ⟨r.id, r.name, r.wins, r.games_played⟩)

/-- The pairing walk of `swiss_pairings` (lines 233-242): consecutive
non-overlapping pairs of standings rows; a trailing unpaired row is
dropped. -/
def pairUp : List Row → List (Nat × String × Nat × String)
  | a :: b :: rest => (a.id, a.name, b.id, b.name) :: pairUp rest
  | _ => []

/-- `swiss_pairings(tournament_id)` (lines 215-242): pair up the current
standings. -/
def swiss_pairings (db : DB) (t : Nat) : List (Nat × String × Nat × String) :=
  pairUp (player_standings db t)

/-- The player ids mentioned by a pairing list, in order. -/
def pairingIds : List (Nat × String × Nat × String) → List Nat
  | [] => []
  | q :: rest => q.1 :: q.2.2.1 :: pairingIds rest

/-- The tie-break chain of the claim on the returned rows: wins
descending, then Opponent Match Wins (recomputed from the row's player id)
descending, then games played ascending. -/
def rowChain (db : DB) (t : Nat) (r s : Row) : Prop :=
  s.wins < r.wins ∨ (r.wins = s.wins ∧
    (omw db t s.id < omw db t r.id ∨ (omw db t r.id = omw db t s.id ∧
      r.games_played ≤ s.games_played)))

example : player_standings ⟨[⟨1, "a"⟩, ⟨2, "b"⟩], []⟩ 0 =
    [⟨1, "a", 0, 0⟩, ⟨2, "b", 0, 0⟩] := by decide

example : player_standings ⟨[⟨1, "a"⟩, ⟨2, "b"⟩, ⟨3, "c"⟩], [⟨2, 1, 7⟩]⟩ 7 =
    [⟨2, "b", 1, 1⟩, ⟨1, "a", 0, 1⟩] := by decide

example : swiss_pairings ⟨[⟨1, "a"⟩, ⟨2, "b"⟩, ⟨3, "c"⟩], []⟩ 0 =
    [(1, "a", 2, "b")] := by decide

/-- A concrete database used to witness the theorems: four registered
players, three matches under scope 7 and one under scope 9. -/
def dbW : DB :=
  ⟨[⟨1, "a"⟩, ⟨2, "b"⟩, ⟨3, "c"⟩, ⟨4, "d"⟩],
   [⟨1, 2, 7⟩, ⟨3, 4, 7⟩, ⟨1, 3, 7⟩, ⟨2, 1, 9⟩]⟩

/-- Recording a match under one scope does not change the scoped match
list of any other scope. -/
lemma scopeMatches_report (db : DB) (w l A B : Nat) (h : A ≠ B) :
    scopeMatches (report_match db w l A) B = scopeMatches db B := by
  unfold scopeMatches report_match
  simp only [List.filter_append]
  have : (([⟨w, l, A⟩] : List MatchRec).filter (fun m => m.tournament_id == B)) = [] := by
    simp [h]
  rw [this, List.append_nil]

/-- Standings depend only on the players table and the scoped match
list. -/
lemma standings_ext (db₁ db₂ : DB) (t : Nat) (hp : db₁.players = db₂.players)
    (hs : scopeMatches db₁ t = scopeMatches db₂ t) :
    player_standings db₁ t = player_standings db₂ t := by
  have hw : ∀ p, winCount db₁ t p = winCount db₂ t p := by
    intro p; unfold winCount; rw [hs]
  have hg : ∀ p, gameCount db₁ t p = gameCount db₂ t p := by
    intro p; unfold gameCount; rw [hs]
  have ho : ∀ p, opponentIds db₁ t p = opponentIds db₂ t p := by
    intro p; unfold opponentIds; rw [hs]
  have homw : ∀ p, omw db₁ t p = omw db₂ t p := by
    intro p
    unfold omw
    rw [ho]
    exact congrArg List.sum (List.map_congr_left (fun q _ => hw q))
  have hmk : ∀ p, mkSRow db₁ t p = mkSRow db₂ t p := by
    intro p; unfold mkSRow; rw [hw, hg, homw]
  have hcnt : countMatches db₁ t = countMatches db₂ t := by
    unfold countMatches; rw [hs]
  unfold player_standings
  rw [hp, hcnt, List.map_congr_left (fun p _ => hmk p)]

/-- The shape of the standings in the general (nonzero scoped matches)
case. -/
lemma standings_general (db : DB) (t : Nat) (h : ¬ countMatches db t = 0) :
    player_standings db t =
      (List.insertionSort srowR
        (if t ≠ 0 then
          (db.players.map (mkSRow db t)).filter (fun r => 0 < r.games_played)
        else db.players.map (mkSRow db t))).map
        (fun r => ⟨r.id, r.name, r.wins, r.games_played⟩) := by
  simp only [player_standings, if_neg h]

/-- Every record entering the sort is the joined record of some
registered player. -/
lemma mem_restricted (db : DB) (t : Nat) (x : SRow)
    (hx : x ∈ (if t ≠ 0 then
        (db.players.map (mkSRow db t)).filter (fun r => 0 < r.games_played)
      else db.players.map (mkSRow db t))) :
    ∃ p ∈ db.players, x = mkSRow db t p := by
  by_cases ht : t ≠ 0
  · rw [if_pos ht] at hx
    have hx2 := List.mem_of_mem_filter hx
    obtain ⟨p, hp, hpe⟩ := List.mem_map.mp hx2
    exact ⟨p, hp, hpe.symm⟩
  · rw [if_neg ht] at hx
    obtain ⟨p, hp, hpe⟩ := List.mem_map.mp hx
    exact ⟨p, hp, hpe.symm⟩

/-- C5: for every scope with zero recorded matches — matches under other
scopes included — `player_standings` returns every registered player with
zero wins and zero games played, in store-native order, exactly as in the
pre-play bootstrap case. -/
theorem bootstrap_standings (db : DB) (t : Nat) (h : countMatches db t = 0) :
    player_standings db t = db.players.map (fun p => ⟨p.id, p.name, 0, 0⟩) := by
  unfold player_standings
  rw [if_pos h]

/-- Witness for C5 on a store whose only matches belong to other scopes. -/
theorem bootstrap_standings_witness :
    countMatches dbW 3 = 0 ∧
      player_standings dbW 3 = dbW.players.map (fun p => ⟨p.id, p.name, 0, 0⟩) :=
  ⟨by decide, bootstrap_standings dbW 3 (by decide)⟩

/-- C6: recording a match under scope A leaves both the standings and the
pairings computed for any other scope B unchanged. -/
theorem scope_isolation (db : DB) (w l A B : Nat) (h : A ≠ B) :
    player_standings (report_match db w l A) B = player_standings db B ∧
      swiss_pairings (report_match db w l A) B = swiss_pairings db B := by
  have hst : player_standings (report_match db w l A) B = player_standings db B :=
    standings_ext _ _ B rfl (scopeMatches_report db w l A B h)
  refine ⟨hst, ?_⟩
  unfold swiss_pairings
  rw [hst]

/-- Witness for C6: a match recorded under scope 2 does not disturb
scope 7. -/
theorem scope_isolation_witness :
    (2 : Nat) ≠ 7 ∧
      (player_standings (report_match dbW 10 20 2) 7 = player_standings dbW 7 ∧
        swiss_pairings (report_match dbW 10 20 2) 7 = swiss_pairings dbW 7) :=
  ⟨by decide, scope_isolation dbW 10 20 2 7 (by decide)⟩

/-- C7 counterexample: with no registered players and no recorded
tournament, `player_standings` does not fail with `NotFoundError`; it
returns normally with the empty list through the bootstrap branch. -/
theorem standings_empty_store_returns_nil : player_standings ⟨[], []⟩ 1 = [] := by
  decide

/-- C7 amended: `player_standings` never fails; whenever no players are
registered at all it returns the empty list, whatever the scope and
whatever matches exist. -/
theorem standings_no_players (db : DB) (t : Nat) (hp : db.players = []) :
    player_standings db t = [] := by
  unfold player_standings
  rw [hp]
  by_cases h : countMatches db t = 0 <;> simp [h]

/-- Witness for the amended C7, on a store that even has a match recorded
under the queried scope. -/
theorem standings_no_players_witness :
    (DB.mk [] [⟨1, 2, 5⟩]).players = [] ∧ player_standings ⟨[], [⟨1, 2, 5⟩]⟩ 5 = [] :=
  ⟨rfl, standings_no_players ⟨[], [⟨1, 2, 5⟩]⟩ 5 rfl⟩

/-- The pairing walk produces one pair per two standings rows. -/
lemma pairUp_length : (l : List Row) → (pairUp l).length = l.length / 2
  | [] => by simp [pairUp]
  | [a] => by simp [pairUp]
  | a :: b :: rest => by
    have ih := pairUp_length rest
    simp only [pairUp, List.length_cons, ih]
    omega

/-- C9: `swiss_pairings` returns exactly half as many pairings as there
are standings rows, rounded down; with fewer than two rows it returns the
empty list. -/
theorem pairings_halve (db : DB) (t : Nat) :
    (swiss_pairings db t).length = (player_standings db t).length / 2 ∧
      ((player_standings db t).length ≤ 1 → swiss_pairings db t = []) := by
  refine ⟨pairUp_length _, ?_⟩
  intro h
  have h2 : (swiss_pairings db t).length = 0 := by
    unfold swiss_pairings
    rw [pairUp_length]
    omega
  exact List.length_eq_zero.mp h2

/-- Witness for C9 on a single-player store. -/
theorem pairings_halve_witness :
    (player_standings ⟨[⟨1, "a"⟩], []⟩ 0).length ≤ 1 ∧
      swiss_pairings ⟨[⟨1, "a"⟩], []⟩ 0 = [] :=
  ⟨by decide, (pairings_halve ⟨[⟨1, "a"⟩], []⟩ 0).2 (by decide)⟩

/-- C10: `delete_players` truncates the players table with cascade, so
both the players table and the matches table are empty afterwards. -/
theorem delete_players_clears_both (db : DB) :
    (delete_players db).players = [] ∧ (delete_players db).«matches» = [] :=
  ⟨rfl, rfl⟩

/-- The fields of a joined record are the per-player aggregates keyed by
its own id. -/
lemma srow_fields (db : DB) (t : Nat) (x : SRow) (p : Player)
    (hp : x = mkSRow db t p) :
    x.wins = winCount db t x.id ∧ x.opponent_wins = omw db t x.id ∧
      x.games_played = gameCount db t x.id := by
  subst hp
  exact ⟨rfl, rfl, rfl⟩

/-- C1: for every scope with at least one recorded match, the standings
are sorted by wins descending, then Opponent Match Wins descending, then
games played ascending. -/
theorem standings_sorted (db : DB) (t : Nat) (h : countMatches db t ≠ 0) :
    (player_standings db t).Pairwise (rowChain db t) := by
  rw [standings_general db t h, List.pairwise_map]
  have hsorted := List.sorted_insertionSort srowR
    (if t ≠ 0 then (db.players.map (mkSRow db t)).filter (fun r => 0 < r.games_played)
      else db.players.map (mkSRow db t))
  refine hsorted.imp_of_mem ?_
  intro a b ha hb hab
  obtain ⟨p, _, hpe⟩ := mem_restricted db t a
    ((List.perm_insertionSort srowR _).mem_iff.mp ha)
  obtain ⟨q, _, hqe⟩ := mem_restricted db t b
    ((List.perm_insertionSort srowR _).mem_iff.mp hb)
  have haf := srow_fields db t a p hpe
  have hbf := srow_fields db t b q hqe
  unfold srowR at hab
  unfold rowChain
  show b.wins < a.wins ∨ (a.wins = b.wins ∧
    (omw db t b.id < omw db t a.id ∨ (omw db t a.id = omw db t b.id ∧
      a.games_played ≤ b.games_played)))
  rw [← haf.2.1, ← hbf.2.1]
  exact hab

/-- Witness for C1 at scope 7 of the concrete store. -/
theorem standings_sorted_witness :
    countMatches dbW 7 ≠ 0 ∧ (player_standings dbW 7).Pairwise (rowChain dbW 7) :=
  ⟨by decide, standings_sorted dbW 7 (by decide)⟩

/-- C2: in a non-unscoped scope, the standings row of a registered player
with at least one scoped game reports exactly the scoped win count and the
scoped game count, and matches recorded under any other scope change
neither count. -/
theorem standings_row_counts (db : DB) (t : Nat) (p : Player) (ht : t ≠ 0)
    (hp : p ∈ db.players) (hg : 0 < gameCount db t p.id) :
    (∃ r ∈ player_standings db t, r.id = p.id ∧ r.wins = winCount db t p.id ∧
        r.games_played = gameCount db t p.id) ∧
      (∀ r ∈ player_standings db t, r.id = p.id →
        r.wins = winCount db t p.id ∧ r.games_played = gameCount db t p.id) ∧
      (∀ w l t2, t2 ≠ t →
        winCount (report_match db w l t2) t p.id = winCount db t p.id ∧
          gameCount (report_match db w l t2) t p.id = gameCount db t p.id) := by
  have hc : ¬ countMatches db t = 0 := by
    have hle : gameCount db t p.id ≤ countMatches db t := List.countP_le_length _
    omega
  rw [standings_general db t hc, if_pos ht]
  refine ⟨?_, ?_, ?_⟩
  · have hmem : mkSRow db t p ∈
        (db.players.map (mkSRow db t)).filter (fun r => 0 < r.games_played) :=
      List.mem_filter.mpr ⟨List.mem_map_of_mem _ hp, decide_eq_true hg⟩
    have hmem2 := (List.perm_insertionSort srowR _).mem_iff.mpr hmem
    exact ⟨_, List.mem_map_of_mem _ hmem2, rfl, rfl, rfl⟩
  · intro r hr hid
    obtain ⟨x, hx, hxe⟩ := List.mem_map.mp hr
    have hx2 := List.mem_of_mem_filter ((List.perm_insertionSort srowR _).mem_iff.mp hx)
    obtain ⟨q, _, hqe⟩ := List.mem_map.mp hx2
    subst hqe
    subst hxe
    have hqp : q.id = p.id := hid
    exact ⟨congrArg (winCount db t) hqp, congrArg (gameCount db t) hqp⟩
  · intro w l t2 ht2
    have hs := scopeMatches_report db w l t2 t ht2
    constructor
    · unfold winCount
      rw [hs]
    · unfold gameCount
      rw [hs]

/-- Witness for C2: player 1 at scope 7 of the concrete store. -/
theorem standings_row_counts_witness :
    ((7 : Nat) ≠ 0 ∧ (⟨1, "a"⟩ : Player) ∈ dbW.players ∧ 0 < gameCount dbW 7 1) ∧
      ((∃ r ∈ player_standings dbW 7, r.id = 1 ∧ r.wins = winCount dbW 7 1 ∧
          r.games_played = gameCount dbW 7 1) ∧
        (∀ r ∈ player_standings dbW 7, r.id = 1 →
          r.wins = winCount dbW 7 1 ∧ r.games_played = gameCount dbW 7 1) ∧
        (∀ w l t2, t2 ≠ 7 →
          winCount (report_match dbW w l t2) 7 1 = winCount dbW 7 1 ∧
            gameCount (report_match dbW w l t2) 7 1 = gameCount dbW 7 1)) :=
  ⟨⟨by decide, by decide, by decide⟩,
    standings_row_counts dbW 7 ⟨1, "a"⟩ (by decide) (by decide) (by decide)⟩

/-- C3: the Opponent Match Wins of any standings row sums each distinct
scoped opponent's own win count exactly once, and a player counts as an
opponent exactly when some match under the scope pits the two against each
other. -/
theorem omw_counts_each_opponent_once (db : DB) (t : Nat) (r : Row) (q : Nat)
    (hr : r ∈ player_standings db t) :
    omw db t r.id = (opponentIds db t r.id).toFinset.sum (fun o => winCount db t o) ∧
      (q ∈ opponentIds db t r.id ↔
        ∃ m ∈ db.«matches», m.tournament_id = t ∧
          ((m.winner_id = r.id ∧ m.loser_id = q) ∨
            (m.loser_id = r.id ∧ m.winner_id = q))) := by
  constructor
  · unfold omw
    exact (List.sum_toFinset _ (List.nodup_dedup _)).symm
  · unfold opponentIds
    rw [List.mem_dedup, List.mem_filterMap]
    constructor
    · rintro ⟨m, hm, hf⟩
      have hm2 : m ∈ db.«matches» := List.mem_of_mem_filter hm
      have hmt : m.tournament_id = t := by
        have := List.of_mem_filter hm
        simpa using this
      refine ⟨m, hm2, hmt, ?_⟩
      by_cases h1 : m.winner_id = r.id
      · simp only [h1, beq_self_eq_true, if_true, Option.some.injEq] at hf
        exact Or.inl ⟨h1, hf⟩
      · by_cases h2 : m.loser_id = r.id
        · simp only [h1, h2, beq_iff_eq, if_false, beq_self_eq_true, if_true,
            Option.some.injEq] at hf
          exact Or.inr ⟨h2, hf⟩
        · simp [h1, h2] at hf
    · rintro ⟨m, hm, hmt, hcase⟩
      refine ⟨m, List.mem_filter.mpr ⟨hm, by simp [hmt]⟩, ?_⟩
      rcases hcase with ⟨hw, hl⟩ | ⟨hl, hw⟩
      · simp [hw, hl]
      · by_cases h1 : m.winner_id = r.id
        · simp only [h1, beq_self_eq_true, if_true, Option.some.injEq]
          omega
        · simp [h1, hl, hw]
          omega

/-- Witness for C3: player 1's row at scope 7 of the concrete store, with
player 2 as candidate opponent. -/
theorem omw_counts_each_opponent_once_witness :
    (⟨1, "a", 2, 2⟩ : Row) ∈ player_standings dbW 7 ∧
      (omw dbW 7 1 = (opponentIds dbW 7 1).toFinset.sum (fun o => winCount dbW 7 o) ∧
        ((2 : Nat) ∈ opponentIds dbW 7 1 ↔
          ∃ m ∈ dbW.«matches», m.tournament_id = 7 ∧
            ((m.winner_id = 1 ∧ m.loser_id = 2) ∨
              (m.loser_id = 1 ∧ m.winner_id = 2)))) :=
  ⟨by decide, omw_counts_each_opponent_once dbW 7 ⟨1, "a", 2, 2⟩ 2 (by decide)⟩

/-- The ids mentioned by the pairing walk are exactly the ids of the
even-length front of the input, in order. -/
lemma pairUp_ids : (l : List Row) →
    pairingIds (pairUp l) = (l.take (2 * (l.length / 2))).map Row.id
  | [] => by simp [pairUp, pairingIds]
  | [a] => by simp [pairUp, pairingIds]
  | a :: b :: rest => by
    have ih := pairUp_ids rest
    have h2 : 2 * ((rest.length + 1 + 1) / 2) = 2 * (rest.length / 2) + 1 + 1 := by
      omega
    simp only [pairUp, pairingIds, List.length_cons, ih, h2, List.take_succ_cons,
      List.map_cons]

/-- The i-th pairing consists of the rows at positions 2i and 2i+1 of the
input. -/
lemma pairUp_getElem : (l : List Row) → (i : Nat) → (a b : Row) →
    l[2 * i]? = some a → l[2 * i + 1]? = some b →
    (pairUp l)[i]? = some (a.id, a.name, b.id, b.name)
  | [], _, _, _, ha, _ => by simp at ha
  | [x], i, a, b, ha, hb => by
    rcases i with _ | j
    · simp at hb
    · rw [List.getElem?_eq_none (by simp; omega)] at ha
      simp at ha
  | x :: y :: rest, i, a, b, ha, hb => by
    rcases i with _ | j
    · simp only [Nat.mul_zero, List.getElem?_cons_zero, Option.some.injEq] at ha
      simp only [Nat.mul_zero, Nat.zero_add, List.getElem?_cons_succ,
        List.getElem?_cons_zero, Option.some.injEq] at hb
      subst ha
      subst hb
      simp [pairUp]
    · have h2 : 2 * (j + 1) = 2 * j + 1 + 1 := by omega
      have h3 : 2 * (j + 1) + 1 = 2 * j + 1 + 1 + 1 := by omega
      rw [h2] at ha
      rw [h3] at hb
      simp only [List.getElem?_cons_succ] at ha hb
      have ih := pairUp_getElem rest j a b ha hb
      simpa [pairUp] using ih

/-- Standings rows carry pairwise distinct player ids whenever the
players table does. -/
lemma standings_ids_nodup (db : DB) (t : Nat)
    (hnd : (db.players.map Player.id).Nodup) :
    ((player_standings db t).map Row.id).Nodup := by
  by_cases h : countMatches db t = 0
  · unfold player_standings
    rw [if_pos h, List.map_map]
    exact hnd
  · rw [standings_general db t h, List.map_map]
    have hbase : ((db.players.map (mkSRow db t)).map SRow.id).Nodup := by
      rw [List.map_map]
      exact hnd
    have hres : ((if t ≠ 0 then
        (db.players.map (mkSRow db t)).filter (fun r => 0 < r.games_played)
      else db.players.map (mkSRow db t)).map SRow.id).Nodup := by
      by_cases ht : t ≠ 0
      · rw [if_pos ht]
        exact List.Nodup.sublist (List.Sublist.map SRow.id (List.filter_sublist _)) hbase
      · rw [if_neg ht]
        exact hbase
    have hperm := (List.perm_insertionSort srowR
      (if t ≠ 0 then (db.players.map (mkSRow db t)).filter (fun r => 0 < r.games_played)
        else db.players.map (mkSRow db t))).map SRow.id
    exact hperm.nodup_iff.mpr hres

/-- C4: pairing i consists of the standings rows at ranks 2i and 2i+1, no
player id occurs in two pairings, and the ids paired are exactly the
even-length front of the standings, so with an odd row count the final
row is silently dropped. -/
theorem pairings_adjacent (db : DB) (t : Nat)
    (hnd : (db.players.map Player.id).Nodup) :
    (∀ i, i < (player_standings db t).length / 2 →
      ∃ a b, (player_standings db t)[2 * i]? = some a ∧
        (player_standings db t)[2 * i + 1]? = some b ∧
        (swiss_pairings db t)[i]? = some (a.id, a.name, b.id, b.name)) ∧
      (pairingIds (swiss_pairings db t)).Nodup ∧
      pairingIds (swiss_pairings db t) =
        ((player_standings db t).take
          (2 * ((player_standings db t).length / 2))).map Row.id := by
  refine ⟨?_, ?_, ?_⟩
  · intro i hi
    have h1 : 2 * i < (player_standings db t).length := by omega
    have h2 : 2 * i + 1 < (player_standings db t).length := by omega
    exact ⟨_, _, List.getElem?_eq_getElem h1, List.getElem?_eq_getElem h2,
      pairUp_getElem _ i _ _ (List.getElem?_eq_getElem h1) (List.getElem?_eq_getElem h2)⟩
  · unfold swiss_pairings
    rw [pairUp_ids, List.map_take]
    exact List.Nodup.sublist (List.take_sublist _ _) (standings_ids_nodup db t hnd)
  · exact pairUp_ids _

/-- Witness for C4 at scope 7 of the concrete store. -/
theorem pairings_adjacent_witness :
    (dbW.players.map Player.id).Nodup ∧
      ((∀ i, i < (player_standings dbW 7).length / 2 →
        ∃ a b, (player_standings dbW 7)[2 * i]? = some a ∧
          (player_standings dbW 7)[2 * i + 1]? = some b ∧
          (swiss_pairings dbW 7)[i]? = some (a.id, a.name, b.id, b.name)) ∧
        (pairingIds (swiss_pairings dbW 7)).Nodup ∧
        pairingIds (swiss_pairings dbW 7) =
          ((player_standings dbW 7).take
            (2 * ((player_standings dbW 7).length / 2))).map Row.id) :=
  ⟨by decide, pairings_adjacent dbW 7 (by decide)⟩

/-- Summing a pointwise sum of two tallies splits into two sums. -/
lemma sum_map_fun_add {α : Type} (L : List α) (f g : α → Nat) :
    (L.map (fun x => f x + g x)).sum = (L.map f).sum + (L.map g).sum := by
  induction L with
  | nil => rfl
  | cons a L ih =>
    simp only [List.map_cons, List.sum_cons, ih]
    omega

/-- A membership indicator sums to zero over a list avoiding the value. -/
lemma sum_indicator_zero : (L : List Nat) → (a : Nat) → a ∉ L →
    (L.map (fun p => if a == p then (1 : Nat) else 0)).sum = 0
  | [], _, _ => rfl
  | b :: L, a, ha => by
    have h1 : ¬ a = b := fun h => ha (by rw [h]; exact List.mem_cons_self b L)
    have h2 : a ∉ L := fun h => ha (List.mem_cons_of_mem b h)
    simp only [List.map_cons, List.sum_cons, sum_indicator_zero L a h2]
    simp [h1]

/-- A membership indicator sums to one over a duplicate-free list
containing the value. -/
lemma sum_indicator_one : (L : List Nat) → (a : Nat) → L.Nodup → a ∈ L →
    (L.map (fun p => if a == p then (1 : Nat) else 0)).sum = 1
  | [], a, _, ha => absurd ha (List.not_mem_nil a)
  | b :: L, a, hnd, ha => by
    by_cases h1 : a = b
    · subst h1
      have h2 : a ∉ L := (List.nodup_cons.mp hnd).1
      simp only [List.map_cons, List.sum_cons, sum_indicator_zero L a h2]
      simp
    · have ha2 : a ∈ L := by
        rcases List.mem_cons.mp ha with h | h
        · exact absurd h h1
        · exact h
      simp only [List.map_cons, List.sum_cons,
        sum_indicator_one L a (List.nodup_cons.mp hnd).2 ha2]
      simp [h1]

/-- A two-value membership indicator sums to two over a duplicate-free
list containing both distinct values. -/
lemma sum_indicator_pair (L : List Nat) (a b : Nat) (hnd : L.Nodup)
    (haL : a ∈ L) (hbL : b ∈ L) (hab : a ≠ b) :
    (L.map (fun p => if a == p || b == p then (1 : Nat) else 0)).sum = 2 := by
  have hsplit : ∀ p ∈ L, (if a == p || b == p then (1 : Nat) else 0) =
      (if a == p then (1 : Nat) else 0) + (if b == p then (1 : Nat) else 0) := by
    intro p _
    by_cases h1 : a = p
    · by_cases h2 : b = p
      · exact absurd (h1.trans h2.symm) hab
      · simp [h1, h2]
    · by_cases h2 : b = p <;> simp [h1, h2]
  rw [List.map_congr_left hsplit, sum_map_fun_add, sum_indicator_one L a hnd haL,
    sum_indicator_one L b hnd hbL]

/-- Each match contributes exactly one win when every winner id occurs
once in the tally list. -/
lemma sum_winCounts : (M : List MatchRec) → (L : List Nat) → L.Nodup →
    (∀ m ∈ M, m.winner_id ∈ L) →
    (L.map (fun p => M.countP (fun m => m.winner_id == p))).sum = M.length
  | [], L, _, _ => by
    simp [List.countP_nil]
  | m :: M, L, hnd, hmem => by
    have ih := sum_winCounts M L hnd (fun x hx => hmem x (List.mem_cons_of_mem m hx))
    have hm := hmem m (List.mem_cons_self m M)
    simp only [List.countP_cons]
    rw [sum_map_fun_add L (fun p => M.countP (fun x => x.winner_id == p))
      (fun p => if m.winner_id == p then 1 else 0), ih,
      sum_indicator_one L m.winner_id hnd hm]
    simp

/-- Each match between two distinct tallied players contributes exactly
two games. -/
lemma sum_gameCounts : (M : List MatchRec) → (L : List Nat) → L.Nodup →
    (∀ m ∈ M, m.winner_id ∈ L ∧ m.loser_id ∈ L) →
    (∀ m ∈ M, m.winner_id ≠ m.loser_id) →
    (L.map (fun p => M.countP (fun m => m.winner_id == p || m.loser_id == p))).sum =
      2 * M.length
  | [], L, _, _, _ => by
    simp [List.countP_nil]
  | m :: M, L, hnd, hmem, hne => by
    have ih := sum_gameCounts M L hnd (fun x hx => hmem x (List.mem_cons_of_mem m hx))
      (fun x hx => hne x (List.mem_cons_of_mem m hx))
    have hm := hmem m (List.mem_cons_self m M)
    simp only [List.countP_cons]
    rw [sum_map_fun_add L
      (fun p => M.countP (fun x => x.winner_id == p || x.loser_id == p))
      (fun p => if m.winner_id == p || m.loser_id == p then 1 else 0), ih,
      sum_indicator_pair L m.winner_id m.loser_id hnd hm.1 hm.2
        (hne m (List.mem_cons_self m M))]
    simp only [List.length_cons]
    omega

/-- Dropping the zero-game rows does not change a tally that vanishes on
them. -/
lemma sum_filter_games : (l : List SRow) → (f : SRow → Nat) →
    (∀ x ∈ l, x.games_played = 0 → f x = 0) →
    ((l.filter (fun r => 0 < r.games_played)).map f).sum = (l.map f).sum
  | [], _, _ => rfl
  | a :: l, f, h0 => by
    have ih := sum_filter_games l f (fun x hx => h0 x (List.mem_cons_of_mem a hx))
    by_cases ha : 0 < a.games_played
    · rw [List.filter_cons, if_pos (decide_eq_true ha)]
      simp only [List.map_cons, List.sum_cons, ih]
    · have ha0 : a.games_played = 0 := by omega
      rw [List.filter_cons, if_neg (by simp [ha0])]
      simp only [List.map_cons, List.sum_cons, ih, h0 a (List.mem_cons_self a l) ha0]
      omega

/-- A player wins at most as many scoped matches as they play. -/
lemma winCount_le_gameCount (db : DB) (t p : Nat) :
    winCount db t p ≤ gameCount db t p := by
  unfold winCount gameCount
  refine List.countP_mono_left ?_
  intro m _ hm
  simp [hm]

/-- A tally of the joined records rewrites to a tally of the player ids. -/
lemma base_map_sum (db : DB) (t : Nat) (f : SRow → Nat) (g : Nat → Nat)
    (hfg : ∀ p : Player, f (mkSRow db t p) = g p.id) :
    ((db.players.map (mkSRow db t)).map f).sum =
      ((db.players.map Player.id).map g).sum := by
  rw [List.map_map, List.map_map]
  exact congrArg List.sum (List.map_congr_left (fun p _ => hfg p))

/-- An all-zero tally sums to zero. -/
lemma sum_map_zeroes {α : Type} : (L : List α) → (L.map (fun _ => (0 : Nat))).sum = 0
  | [] => rfl
  | _ :: L => by simpa using sum_map_zeroes L

/-- C8 counterexample: with one registered player and a single self-match
recorded under scope 5 — which `report_match` accepts, as it validates
nothing — the games-played total of the standings is 1, not twice the
match count, so the conservation claim fails as stated. -/
theorem conservation_fails_on_self_match :
    ¬ (((player_standings ⟨[⟨1, "a"⟩], [⟨1, 1, 5⟩]⟩ 5).map Row.wins).sum =
        countMatches ⟨[⟨1, "a"⟩], [⟨1, 1, 5⟩]⟩ 5 ∧
      ((player_standings ⟨[⟨1, "a"⟩], [⟨1, 1, 5⟩]⟩ 5).map Row.games_played).sum =
        2 * countMatches ⟨[⟨1, "a"⟩], [⟨1, 1, 5⟩]⟩ 5) := by
  decide

/-- C8 amended: on stores satisfying the schema's integrity conditions —
distinct player ids, every recorded winner and loser registered — and
containing no self-matches, the standings wins sum to the scoped match
count and the games played sum to twice the scoped match count, for every
scope. -/
theorem standings_conservation (db : DB) (t : Nat)
    (hnd : (db.players.map Player.id).Nodup)
    (hreg : ∀ m ∈ db.«matches», m.winner_id ∈ db.players.map Player.id ∧
      m.loser_id ∈ db.players.map Player.id)
    (hwl : ∀ m ∈ db.«matches», m.winner_id ≠ m.loser_id) :
    ((player_standings db t).map Row.wins).sum = countMatches db t ∧
      ((player_standings db t).map Row.games_played).sum = 2 * countMatches db t := by
  have hregS : ∀ m ∈ scopeMatches db t, m.winner_id ∈ db.players.map Player.id ∧
      m.loser_id ∈ db.players.map Player.id :=
    fun m hm => hreg m (List.mem_of_mem_filter hm)
  have hwlS : ∀ m ∈ scopeMatches db t, m.winner_id ≠ m.loser_id :=
    fun m hm => hwl m (List.mem_of_mem_filter hm)
  by_cases h : countMatches db t = 0
  · have hb : player_standings db t = db.players.map (fun p => ⟨p.id, p.name, 0, 0⟩) := by
      unfold player_standings
      rw [if_pos h]
    rw [hb, h, List.map_map, List.map_map]
    exact ⟨sum_map_zeroes db.players, by rw [Nat.mul_zero]; exact sum_map_zeroes db.players⟩
  · rw [standings_general db t h, List.map_map, List.map_map]
    have hwinsum : ((db.players.map (mkSRow db t)).map SRow.wins).sum = countMatches db t := by
      rw [base_map_sum db t SRow.wins (fun q => winCount db t q) (fun p => rfl)]
      exact sum_winCounts (scopeMatches db t) (db.players.map Player.id) hnd
        (fun m hm => (hregS m hm).1)
    have hgamesum : ((db.players.map (mkSRow db t)).map SRow.games_played).sum =
        2 * countMatches db t := by
      rw [base_map_sum db t SRow.games_played (fun q => gameCount db t q) (fun p => rfl)]
      exact sum_gameCounts (scopeMatches db t) (db.players.map Player.id) hnd hregS hwlS
    have hzero : ∀ x ∈ db.players.map (mkSRow db t), x.games_played = 0 → x.wins = 0 := by
      intro x hx hx0
      obtain ⟨p, _, hpe⟩ := List.mem_map.mp hx
      have hle : x.wins ≤ x.games_played := by
        rw [← hpe]
        exact winCount_le_gameCount db t p.id
      omega
    have hperm := List.perm_insertionSort srowR
      (if t ≠ 0 then (db.players.map (mkSRow db t)).filter (fun r => 0 < r.games_played)
        else db.players.map (mkSRow db t))
    constructor
    · have hpw := (hperm.map SRow.wins).sum_eq
      refine hpw.trans ?_
      by_cases ht : t ≠ 0
      · rw [if_pos ht]
        exact (sum_filter_games _ SRow.wins hzero).trans hwinsum
      · rw [if_neg ht]
        exact hwinsum
    · have hpg := (hperm.map SRow.games_played).sum_eq
      refine hpg.trans ?_
      by_cases ht : t ≠ 0
      · rw [if_pos ht]
        exact (sum_filter_games _ SRow.games_played (fun x _ h => h)).trans hgamesum
      · rw [if_neg ht]
        exact hgamesum

/-- Witness for the amended C8 at scope 7 of the concrete store. -/
theorem standings_conservation_witness :
    ((dbW.players.map Player.id).Nodup ∧
      (∀ m ∈ dbW.«matches», m.winner_id ∈ dbW.players.map Player.id ∧
        m.loser_id ∈ dbW.players.map Player.id) ∧
      (∀ m ∈ dbW.«matches», m.winner_id ≠ m.loser_id)) ∧
      (((player_standings dbW 7).map Row.wins).sum = countMatches dbW 7 ∧
        ((player_standings dbW 7).map Row.games_played).sum = 2 * countMatches dbW 7) :=
  ⟨⟨by decide, by decide, by decide⟩,
    standings_conservation dbW 7 (by decide) (by decide) (by decide)⟩
